import Mathlib

/-!
Shallow embedding of `src/Model.py` (EntryFrager/ECG): a 1-D convolutional
residual network (Bottleneck blocks + ResNet backbone), its training and
evaluation loops, and the metric reporter `metric_func`.

Tensor operations are embedded at the level of their shape semantics
(PyTorch's documented output-size formulas for `Conv1d`, `MaxPool1d`,
`AdaptiveAvgPool1d`, `Linear`); metric arithmetic is embedded over `ℚ`
with confusion counts in `ℕ`; the training loop is embedded as a pure
recursive function parametrised over the network/optimizer step.
-/

/-- Shape of a 3-D tensor `(batch, channels, length)`. -/
structure Shape3 where
  batch : Nat
  channels : Nat
  len : Nat
deriving DecidableEq, Repr

/-- Shape of a 2-D tensor `(batch, features)`. -/
structure Shape2 where
  batch : Nat
  features : Nat
deriving DecidableEq, Repr

/-- Shape semantics of `nn.Conv1d(inC, outC, kernel_size=k, stride=s, padding=p)`:
the input must have `inC` channels and the computed output length must be at
least 1 (PyTorch raises otherwise); the output length is
`⌊(len + 2p − k) / s⌋ + 1`. -/
def conv1dShape (inC outC k s p : Nat) (sh : Shape3) : Option Shape3 :=
  if sh.channels = inC ∧ k ≤ sh.len + 2 * p then
    some ⟨sh.batch, outC, (sh.len + 2 * p - k) / s + 1⟩
  else none

/-- Shape semantics of `nn.BatchNorm1d(features)` on a 3-D input: the channel
count must equal `features`; the shape is unchanged. -/
def batchNorm1dShape (features : Nat) (sh : Shape3) : Option Shape3 :=
  if sh.channels = features then some sh else none

/-- Shape semantics of `nn.MaxPool1d(kernel_size=k, stride=s, padding=p)`:
output length `⌊(len + 2p − k) / s⌋ + 1`, which must be at least 1. -/
def maxPool1dShape (k s p : Nat) (sh : Shape3) : Option Shape3 :=
  if k ≤ sh.len + 2 * p then
    some ⟨sh.batch, sh.channels, (sh.len + 2 * p - k) / s + 1⟩
  else none

/-- Shape semantics of `nn.AdaptiveAvgPool1d(1)`: any non-empty length is
pooled to length 1. -/
def adaptiveAvgPool1Shape (sh : Shape3) : Option Shape3 :=
  if 1 ≤ sh.len then some ⟨sh.batch, sh.channels, 1⟩ else none

/-- Shape semantics of `torch.flatten(x, 1)` on a 3-D tensor. -/
def flattenShape (sh : Shape3) : Shape2 :=
  ⟨sh.batch, sh.channels * sh.len⟩

/-- Shape semantics of `nn.Linear(inF, outF)` on a 2-D input. -/
def linearShape (inF outF : Nat) (sh : Shape2) : Option Shape2 :=
  if sh.features = inF then some ⟨sh.batch, outF⟩ else none

/-- `Bottleneck.forward` (Model.py:56-77), at shape level.  `hasDown` records
whether a `downsample` module was supplied (`downsample is not None`).  The
three convolutions are `conv_1 = Conv1d(inplanes, planes, 1, 1, 0)`,
`conv_2 = Conv1d(planes, planes, 3, stride, 1)`,
`conv_3 = Conv1d(planes, planes*4, 1, 1, 0)`, each followed by a batch norm
(ReLU preserves shape and is omitted); the downsample path is
`Conv1d(inplanes, planes*4, 1, stride, 0)` + `BatchNorm1d(planes*4)`; the
final addition `out + residual` requires both shapes to agree. -/
def bottleneckShape (inplanes planes stride : Nat) (hasDown : Bool)
    (x : Shape3) : Option Shape3 := do
  let out ← conv1dShape inplanes planes 1 1 0 x
  let out ← batchNorm1dShape planes out
  let out ← conv1dShape planes planes 3 stride 1 out
  let out ← batchNorm1dShape planes out
  let out ← conv1dShape planes (planes * 4) 1 1 0 out
  let out ← batchNorm1dShape (planes * 4) out
  let residual ← if hasDown then do
      let r ← conv1dShape inplanes (planes * 4) 1 stride 0 x
      batchNorm1dShape (planes * 4) r
    else
      pure x
  if out = residual then pure out else none

/-- Configuration of one Bottleneck block as built by `ResNet._make_layer`. -/
structure BlockCfg where
  inplanes : Nat
  planes : Nat
  stride : Nat
  hasDown : Bool
deriving DecidableEq, Repr

/-- `ResNet._make_layer(block, planes, blocks, stride)` (Model.py:125-139):
a downsample projection is built iff `stride != 1 or inplanes != planes * 4`;
it is attached to the first block only; `inplanes` becomes `planes * 4`; the
remaining `blocks - 1` blocks are `block(planes*4, planes)` with default
stride 1 and no downsample.  Returns the block list and the updated
`self.inplanes`. -/
def makeLayer (inplanes planes blocks stride : Nat) : List BlockCfg × Nat :=
  let hasDown : Bool := (stride != 1) || (inplanes != planes * 4)
  (⟨inplanes, planes, stride, hasDown⟩ ::
     List.replicate (blocks - 1) ⟨planes * 4, planes, 1, false⟩,
   planes * 4)

/-- The blocks of the four stages of `ResNet.__init__` (Model.py:91-94):
`self.inplanes` starts at 64; stages use `planes` 64/128/256/512 with
strides 1/2/2/2. -/
def resnetLayers (l1 l2 l3 l4 : Nat) : List BlockCfg :=
  let s1 := makeLayer 64 64 l1 1
  let s2 := makeLayer s1.2 128 l2 2
  let s3 := makeLayer s2.2 256 l3 2
  let s4 := makeLayer s3.2 512 l4 2
  s1.1 ++ s2.1 ++ s3.1 ++ s4.1

/-- Running a sequential stack of Bottleneck blocks at shape level. -/
def runBlocks (cfgs : List BlockCfg) (sh : Shape3) : Option Shape3 :=
  cfgs.foldlM
    (fun s c => bottleneckShape c.inplanes c.planes c.stride c.hasDown s) sh

/-- `ResNet.forward` (Model.py:107-122), at shape level: the stem is
`Conv1d(12, 64, 15, 2, 7)` + `BatchNorm1d(64)` + ReLU +
`MaxPool1d(3, 2, 1)`; then the four stages; then `AdaptiveAvgPool1d(1)`,
`flatten(1)` and `Linear(512 * 4, num_classes)`. -/
def resnetForwardShape (l1 l2 l3 l4 numClasses : Nat) (x : Shape3) :
    Option Shape2 := do
  let out ← conv1dShape 12 64 15 2 7 x
  let out ← batchNorm1dShape 64 out
  let out ← maxPool1dShape 3 2 1 out
  let out ← runBlocks (resnetLayers l1 l2 l3 l4) out
  let out ← adaptiveAvgPool1Shape out
  linearShape (512 * 4) numClasses (flattenShape out)

lemma conv1dShape_pos (inC outC k s p : Nat) (sh : Shape3)
    (h1 : sh.channels = inC) (h2 : k ≤ sh.len + 2 * p) :
    conv1dShape inC outC k s p sh = some ⟨sh.batch, outC, (sh.len + 2 * p - k) / s + 1⟩ := by
  simp [conv1dShape, h1, h2]

lemma bottleneckShape_noDown (b p L : Nat) (hL : 1 ≤ L) :
    bottleneckShape (p * 4) p 1 false ⟨b, p * 4, L⟩ = some ⟨b, p * 4, L⟩ := by
  have h1 : (L + 2 * 0 - 1) / 1 + 1 = L := by omega
  have h2 : (L + 2 * 1 - 3) / 1 + 1 = L := by omega
  simp [bottleneckShape, conv1dShape, batchNorm1dShape, hL, h1, h2, Nat.le_add_left]

lemma bottleneckShape_down (b ip p s L : Nat) (hL : 1 ≤ L) :
    bottleneckShape ip p s true ⟨b, ip, L⟩ = some ⟨b, p * 4, (L - 1) / s + 1⟩ := by
  have h1 : (L + 2 * 0 - 1) / 1 + 1 = L := by omega
  have h2 : L + 2 * 1 - 3 = L - 1 := by omega
  have h4 : ∀ q : Nat, (q + 1 + 2 * 0 - 1) / 1 + 1 = q + 1 := by omega
  have h5 : L + 2 * 0 - 1 = L - 1 := by omega
  simp [bottleneckShape, conv1dShape, batchNorm1dShape, hL, h1, h2, h4, h5, Nat.le_add_left]

lemma runBlocks_replicate (n b p L : Nat) (hL : 1 ≤ L) :
    runBlocks (List.replicate n ⟨p * 4, p, 1, false⟩) ⟨b, p * 4, L⟩ =
      some ⟨b, p * 4, L⟩ := by
  induction n with
  | zero => rfl
  | succ n ih =>
    rw [runBlocks, List.replicate_succ, List.foldlM_cons]
    simp only []
    rw [bottleneckShape_noDown b p L hL]
    simpa [runBlocks] using ih

lemma runBlocks_makeLayer (b ip p n s L : Nat) (hL : 1 ≤ L) :
    runBlocks (makeLayer ip p n s).1 ⟨b, ip, L⟩ = some ⟨b, p * 4, (L - 1) / s + 1⟩ := by
  rcases Decidable.em (s = 1 ∧ ip = p * 4) with h | h
  · obtain ⟨hs1, hip⟩ := h
    subst hs1
    subst hip
    rw [makeLayer]
    simp only [bne_self_eq_false, Bool.or_self]
    rw [runBlocks, List.foldlM_cons, bottleneckShape_noDown b p L hL]
    have hres := runBlocks_replicate (n - 1) b p L hL
    rw [runBlocks] at hres
    simp only [Option.bind_eq_bind, Option.some_bind]
    rw [hres]
    simp [Nat.div_one, Nat.sub_add_cancel hL]
  · have hd : ((s != 1) || (ip != p * 4)) = true := by
      rcases Decidable.em (s = 1) with h1 | h1
      · have h2 : ip ≠ p * 4 := fun hc => h ⟨h1, hc⟩
        simp [h2]
      · simp [h1]
    rw [makeLayer]
    simp only [hd]
    rw [runBlocks, List.foldlM_cons, bottleneckShape_down b ip p s L hL]
    have hres := runBlocks_replicate (n - 1) b p ((L - 1) / s + 1) (Nat.le_add_left 1 _)
    rw [runBlocks] at hres
    simp only [Option.bind_eq_bind, Option.some_bind]
    rw [hres]

lemma batchNorm1dShape_pos (f : Nat) (sh : Shape3) (h : sh.channels = f) :
    batchNorm1dShape f sh = some sh := by
  simp [batchNorm1dShape, h]

lemma maxPool1dShape_pos (k s p : Nat) (sh : Shape3) (h : k ≤ sh.len + 2 * p) :
    maxPool1dShape k s p sh = some ⟨sh.batch, sh.channels, (sh.len + 2 * p - k) / s + 1⟩ := by
  simp [maxPool1dShape, h]

lemma adaptiveAvgPool1Shape_pos (sh : Shape3) (h : 1 ≤ sh.len) :
    adaptiveAvgPool1Shape sh = some ⟨sh.batch, sh.channels, 1⟩ := by
  simp [adaptiveAvgPool1Shape, h]

lemma runBlocks_append (xs ys : List BlockCfg) (sh : Shape3) :
    runBlocks (xs ++ ys) sh = runBlocks xs sh >>= fun s => runBlocks ys s := by
  rw [runBlocks, List.foldlM_append]
  rfl

lemma resnetLayers_eq (l1 l2 l3 l4 : Nat) :
    resnetLayers l1 l2 l3 l4 =
      (makeLayer 64 64 l1 1).1 ++ ((makeLayer 256 128 l2 2).1 ++
        ((makeLayer 512 256 l3 2).1 ++ (makeLayer 1024 512 l4 2).1)) := by
  unfold resnetLayers makeLayer
  norm_num

lemma runBlocks_resnetLayers (l1 l2 l3 l4 b L : Nat) (hL : 1 ≤ L) :
    ∃ Lf, 1 ≤ Lf ∧
      runBlocks (resnetLayers l1 l2 l3 l4) ⟨b, 64, L⟩ = some ⟨b, 2048, Lf⟩ := by
  refine ⟨((((L - 1) / 2 + 1 - 1) / 2 + 1 - 1) / 2 + 1), Nat.le_add_left 1 _, ?_⟩
  rw [resnetLayers_eq]
  simp only [runBlocks_append]
  rw [runBlocks_makeLayer b 64 64 l1 1 L hL]
  simp only [Option.bind_eq_bind, Option.some_bind, Nat.div_one, Nat.sub_add_cancel hL]
  rw [runBlocks_makeLayer b 256 128 l2 2 L hL]
  simp only [Option.bind_eq_bind, Option.some_bind]
  rw [runBlocks_makeLayer b (128 * 4) 256 l3 2 ((L - 1) / 2 + 1) (Nat.le_add_left 1 _)]
  simp only [Option.bind_eq_bind, Option.some_bind]
  rw [runBlocks_makeLayer b (256 * 4) 512 l4 2 _ (Nat.le_add_left 1 _)]

theorem resnet_forward_shape (b L l1 l2 l3 l4 nc : Nat) (hL : 1 ≤ L) :
    resnetForwardShape l1 l2 l3 l4 nc ⟨b, 12, L⟩ = some ⟨b, nc⟩ := by
  rw [resnetForwardShape]
  rw [conv1dShape_pos 12 64 15 2 7 ⟨b, 12, L⟩ rfl (show 15 ≤ L + 2 * 7 by omega)]
  simp only [Option.bind_eq_bind, Option.some_bind]
  rw [batchNorm1dShape_pos 64 _ rfl]
  simp only [Option.some_bind]
  rw [maxPool1dShape_pos 3 2 1 _ (show 3 ≤ (L + 2 * 7 - 15) / 2 + 1 + 2 * 1 by omega)]
  simp only [Option.some_bind]
  obtain ⟨Lf, hLf, hrun⟩ :=
    runBlocks_resnetLayers l1 l2 l3 l4 b (((L + 2 * 7 - 15) / 2 + 1 + 2 * 1 - 3) / 2 + 1)
      (Nat.le_add_left 1 _)
  rw [hrun]
  simp only [Option.some_bind]
  rw [adaptiveAvgPool1Shape_pos _ hLf]
  simp only [Option.some_bind]
  rw [flattenShape, linearShape]
  norm_num

/-- C1: for every input batch of shape `(batch, 12, length)` with a positive
length (any positive length survives the stem and the three strided stages,
thanks to the padding), `ResNet.forward` produces shape
`(batch, num_classes)`; the right-hand side does not mention the length, so
the output shape is independent of the input sequence length. -/
theorem resnet_forward_output_shape (b L l1 l2 l3 l4 nc : Nat) (hL : 1 ≤ L) :
    resnetForwardShape l1 l2 l3 l4 nc ⟨b, 12, L⟩ = some ⟨b, nc⟩ := by
  rw [resnetForwardShape]
  rw [conv1dShape_pos 12 64 15 2 7 ⟨b, 12, L⟩ rfl (show 15 ≤ L + 2 * 7 by omega)]
  simp only [Option.bind_eq_bind, Option.some_bind]
  rw [batchNorm1dShape_pos 64 _ rfl]
  simp only [Option.some_bind]
  rw [maxPool1dShape_pos 3 2 1 _ (show 3 ≤ (L + 2 * 7 - 15) / 2 + 1 + 2 * 1 by omega)]
  simp only [Option.some_bind]
  obtain ⟨Lf, hLf, hrun⟩ :=
    runBlocks_resnetLayers l1 l2 l3 l4 b (((L + 2 * 7 - 15) / 2 + 1 + 2 * 1 - 3) / 2 + 1)
      (Nat.le_add_left 1 _)
  rw [hrun]
  simp only [Option.some_bind]
  rw [adaptiveAvgPool1Shape_pos _ hLf]
  simp only [Option.some_bind]
  rw [flattenShape, linearShape]
  norm_num

/-- Witness for C1: the spec's end-to-end example, a batch of shape
`(4, 12, 1000)` through a network with layer counts `[3, 4, 6, 3]` and 5
classes, yields shape `(4, 5)`. -/
theorem resnet_forward_output_shape_witness :
    1 ≤ 1000 ∧ resnetForwardShape 3 4 6 3 5 ⟨4, 12, 1000⟩ = some ⟨4, 5⟩ :=
  ⟨by decide, resnet_forward_output_shape 4 1000 3 4 6 3 5 (by decide)⟩

/-- C5: `ResNet._make_layer` attaches a downsample projection to the first
block of a stage iff `stride ≠ 1` or the current `inplanes ≠ planes * 4`,
and every subsequent block of the stage is built with no projection. -/
theorem make_layer_projection_first_block_only (ip p blocks s : Nat) :
    ∃ first rest, (makeLayer ip p blocks s).1 = first :: rest ∧
      (first.hasDown = true ↔ (s ≠ 1 ∨ ip ≠ p * 4)) ∧
      ∀ c ∈ rest, c.hasDown = false := by
  refine ⟨⟨ip, p, s, (s != 1) || (ip != p * 4)⟩,
    List.replicate (blocks - 1) ⟨p * 4, p, 1, false⟩, rfl, ?_, ?_⟩
  · simp [Bool.or_eq_true, bne_iff_ne]
  · intro c hc
    rw [List.eq_of_mem_replicate hc]

/-- C6: for an input of shape `(batch, inplanes, length)` to a validly
constructed `Bottleneck` (a projection supplied whenever channels or stride
mismatch), `Bottleneck.forward` has output shape
`(batch, planes * 4, ⌈length/stride⌉)` — written `(length + stride - 1) / stride`
in natural-number arithmetic — and the same formula holds whether or not the
skip path carries a projection. -/
theorem bottleneck_forward_output_shape (b ip p s L : Nat) (down : Bool)
    (hL : 1 ≤ L) (hs : 0 < s)
    (hvalid : (s ≠ 1 ∨ ip ≠ p * 4) → down = true) :
    bottleneckShape ip p s down ⟨b, ip, L⟩ =
      some ⟨b, p * 4, (L + s - 1) / s⟩ := by
  have hceil : (L + s - 1) / s = (L - 1) / s + 1 := by
    have h : L + s - 1 = (L - 1) + s := by omega
    rw [h, Nat.add_div_right _ hs]
  rw [hceil]
  cases down with
  | true => exact bottleneckShape_down b ip p s L hL
  | false =>
    have hmatch : s = 1 ∧ ip = p * 4 := by
      rcases Decidable.em (s = 1) with h1 | h1
      · rcases Decidable.em (ip = p * 4) with h2 | h2
        · exact ⟨h1, h2⟩
        · exact absurd (hvalid (Or.inr h2)) (by simp)
      · exact absurd (hvalid (Or.inl h1)) (by simp)
    obtain ⟨h1, h2⟩ := hmatch
    subst h1
    subst h2
    rw [bottleneckShape_noDown b p L hL]
    simp [Nat.div_one, Nat.sub_add_cancel hL]

/-- Witness for C6: a first-stage block (`inplanes = 64`, `planes = 64`,
stride 1) needs a projection because `64 ≠ 256`; on a length-100 input the
output shape is `(2, 256, 100)`. -/
theorem bottleneck_forward_output_shape_witness :
    1 ≤ 100 ∧ 0 < 1 ∧ ((1 ≠ 1 ∨ 64 ≠ 64 * 4) → true = true) ∧
      bottleneckShape 64 64 1 true ⟨2, 64, 100⟩ =
        some ⟨2, 64 * 4, (100 + 1 - 1) / 1⟩ :=
  ⟨by decide, by decide, fun _ => rfl,
    bottleneck_forward_output_shape 2 64 64 1 100 true (by decide) (by decide)
      (fun _ => rfl)⟩

/-!
Embedding of `metric_func` (Model.py:236-303).  The arrays `bin_labels` and
`bin_preds` are represented column-wise: a `Col` is the pair
(label column, prediction column) for one diagnostic class, with entries as
`Bool` (the arrays hold 0.0/1.0 floats).  Rates are rationals; `ℚ` has a
total division, and wherever the Python code would produce `nan` from a
zero denominator the numerator/denominator pair is exposed separately.
-/

/-- One label's column pair: `(bin_labels[:, i], bin_preds[:, i])`. -/
abbrev Col : Type := List Bool × List Bool

/-- Entry `C[a][b]` of `sklearn.metrics.confusion_matrix(l, p, labels=[0,1])`:
the number of samples whose true label is `a` and predicted label is `b`. -/
def countPair (a b : Bool) (l p : List Bool) : Nat :=
  (l.zip p).countP (fun x => x.1 == a && x.2 == b)

/-- `TP_i = conf_matrix[1][1]`. -/
def cTP (c : Col) : Nat := countPair true true c.1 c.2

/-- `FP_i = conf_matrix[0][1]`. -/
def cFP (c : Col) : Nat := countPair false true c.1 c.2

/-- `TN_i = conf_matrix[0][0]`. -/
def cTN (c : Col) : Nat := countPair false false c.1 c.2

/-- `FN_i = conf_matrix[1][0]`. -/
def cFN (c : Col) : Nat := countPair true false c.1 c.2

/-- `sensitivity_i = TP_i / (TP_i + FN_i)` (Model.py:249). -/
def sensitivityRate (c : Col) : ℚ := (cTP c : ℚ) / ((cTP c : ℚ) + (cFN c : ℚ))

/-- `specificity_i = TN_i / (TN_i + FP_i)` (Model.py:250). -/
def specificityRate (c : Col) : ℚ := (cTN c : ℚ) / ((cTN c : ℚ) + (cFP c : ℚ))

/-- `precision_i = TP_i / (TP_i + FP_i)` (Model.py:251). -/
def precisionRate (c : Col) : ℚ := (cTP c : ℚ) / ((cTP c : ℚ) + (cFP c : ℚ))

/-- `my_f1` entry: `2 * sensitivity_i * precision_i / (sensitivity_i + precision_i)`
(Model.py:262). -/
def f1Score (c : Col) : ℚ :=
  2 * sensitivityRate c * precisionRate c / (sensitivityRate c + precisionRate c)

/-- `np.mean` of a list of rationals: sum divided by length. -/
def listMean (xs : List ℚ) : ℚ := xs.sum / (xs.length : ℚ)

/-- `TP_mean = np.mean(TP)` (Model.py:267). -/
def tpMean (cols : List Col) : ℚ := listMean (cols.map (fun c => (cTP c : ℚ)))

/-- `FP_mean = np.mean(FP)` (Model.py:267). -/
def fpMean (cols : List Col) : ℚ := listMean (cols.map (fun c => (cFP c : ℚ)))

/-- `TN_mean = np.mean(TN)` (Model.py:267). -/
def tnMean (cols : List Col) : ℚ := listMean (cols.map (fun c => (cTN c : ℚ)))

/-- `FN_mean = np.mean(FN)` (Model.py:267). -/
def fnMean (cols : List Col) : ℚ := listMean (cols.map (fun c => (cFN c : ℚ)))

/-- `micro_sensitivity = TP_mean / (TP_mean + FN_mean)` (Model.py:268). -/
def microSensitivity (cols : List Col) : ℚ :=
  tpMean cols / (tpMean cols + fnMean cols)

/-- `micro_specificity = TN_mean / (TN_mean + FP_mean)` (Model.py:269). -/
def microSpecificity (cols : List Col) : ℚ :=
  tnMean cols / (tnMean cols + fpMean cols)

/-- `micro_precision = TP_mean / (TP_mean + FP_mean)` (Model.py:270). -/
def microPrecision (cols : List Col) : ℚ :=
  tpMean cols / (tpMean cols + fpMean cols)

/-- `micro_f1` (Model.py:272). -/
def microF1 (cols : List Col) : ℚ :=
  2 * microSensitivity cols * microPrecision cols /
    (microSensitivity cols + microPrecision cols)

/-- `macro_sensitivity = np.mean(sensitivity)` (Model.py:282). -/
def macroSensitivity (cols : List Col) : ℚ := listMean (cols.map sensitivityRate)

/-- `macro_specificity = np.mean(specificity)` (Model.py:283). -/
def macroSpecificity (cols : List Col) : ℚ := listMean (cols.map specificityRate)

/-- `macro_precision = np.mean(precision)` (Model.py:284). -/
def macroPrecision (cols : List Col) : ℚ := listMean (cols.map precisionRate)

/-- `macro_f1` (Model.py:286). -/
def macroF1 (cols : List Col) : ℚ :=
  2 * macroSensitivity cols * macroPrecision cols /
    (macroSensitivity cols + macroPrecision cols)

/-- The value printed under `Weighted averaging with w_k=1`:
`np.mean(my_f1)` (Model.py:296-297). -/
def weightedAvgF1 (cols : List Col) : ℚ := listMean (cols.map f1Score)

lemma map_natcast_sum (f : Col → Nat) (cols : List Col) :
    (cols.map (fun c => (f c : ℚ))).sum = ((cols.map f).sum : ℚ) := by
  induction cols with
  | nil => simp
  | cons c cs ih => simp [ih]

/-- Modelled from the spec glossary: micro sensitivity from pooled (summed)
counts across all labels. -/
def pooledSensitivity (cols : List Col) : ℚ :=
  ((cols.map cTP).sum : ℚ) / (((cols.map cTP).sum : ℚ) + ((cols.map cFN).sum : ℚ))

/-- Modelled from the spec glossary: micro specificity from pooled counts. -/
def pooledSpecificity (cols : List Col) : ℚ :=
  ((cols.map cTN).sum : ℚ) / (((cols.map cTN).sum : ℚ) + ((cols.map cFP).sum : ℚ))

/-- Modelled from the spec glossary: micro precision from pooled counts. -/
def pooledPrecision (cols : List Col) : ℚ :=
  ((cols.map cTP).sum : ℚ) / (((cols.map cTP).sum : ℚ) + ((cols.map cFP).sum : ℚ))

lemma mean_rate_eq_pooled_rate (A B n : ℚ) (hn : n ≠ 0) :
    (A / n) / (A / n + B / n) = A / (A + B) := by
  rw [div_add_div_same]
  rw [div_div_div_cancel_right₀]
  exact hn

/-- C3: for a non-empty family of per-label confusion counts with
non-degenerate pooled denominators, the micro-averaged sensitivity,
specificity and precision that `metric_func` derives from the arithmetic
means of TP/FP/TN/FN agree with the rates derived from the pooled (summed)
counts, i.e. with the glossary's pooled-count definition of micro
averaging. -/
theorem micro_averaging_equals_pooled (cols : List Col) (hne : cols ≠ [])
    (h1 : (cols.map cTP).sum + (cols.map cFN).sum ≠ 0)
    (h2 : (cols.map cTN).sum + (cols.map cFP).sum ≠ 0)
    (h3 : (cols.map cTP).sum + (cols.map cFP).sum ≠ 0) :
    microSensitivity cols = pooledSensitivity cols ∧
    microSpecificity cols = pooledSpecificity cols ∧
    microPrecision cols = pooledPrecision cols := by
  have hn : (cols.length : ℚ) ≠ 0 :=
    Nat.cast_ne_zero.mpr (Nat.pos_iff_ne_zero.mp (List.length_pos.mpr hne))
  refine ⟨?_, ?_, ?_⟩
  · rw [microSensitivity, pooledSensitivity, tpMean, fnMean, listMean, listMean]
    rw [List.length_map, List.length_map, map_natcast_sum, map_natcast_sum]
    exact mean_rate_eq_pooled_rate _ _ _ hn
  · rw [microSpecificity, pooledSpecificity, tnMean, fpMean, listMean, listMean]
    rw [List.length_map, List.length_map, map_natcast_sum, map_natcast_sum]
    exact mean_rate_eq_pooled_rate _ _ _ hn
  · rw [microPrecision, pooledPrecision, tpMean, fpMean, listMean, listMean]
    rw [List.length_map, List.length_map, map_natcast_sum, map_natcast_sum]
    exact mean_rate_eq_pooled_rate _ _ _ hn

/-- Witness for C3 on two concrete label columns. -/
theorem micro_averaging_equals_pooled_witness :
    (([([true, false], [true, false]), ([true, true], [true, false])] : List Col) ≠ [] ∧
      ((([([true, false], [true, false]), ([true, true], [true, false])] : List Col).map cTP).sum +
        (([([true, false], [true, false]), ([true, true], [true, false])] : List Col).map cFN).sum ≠ 0)) ∧
    microSensitivity [([true, false], [true, false]), ([true, true], [true, false])] =
      pooledSensitivity [([true, false], [true, false]), ([true, true], [true, false])] :=
  ⟨⟨by decide, by decide⟩,
    (micro_averaging_equals_pooled
      [([true, false], [true, false]), ([true, true], [true, false])]
      (by decide) (by decide) (by decide) (by decide)).1⟩

/-- The unweighted arithmetic mean of the per-label F1 scores, the
aggregation the spec says the printed "weighted" value actually is. -/
def unweightedMeanF1 (cols : List Col) : ℚ :=
  (cols.map f1Score).sum / (cols.length : ℚ)

/-- Number of positive ground-truth samples for one label (its support). -/
def supportCount (c : Col) : Nat := c.1.countP (· == true)

/-- A support-weighted (class-weighted) average of the per-label F1 scores,
the aggregation the spec says the printed value is *not*. -/
def classWeightedF1 (cols : List Col) : ℚ :=
  (cols.map (fun c => (supportCount c : ℚ) * f1Score c)).sum /
    (cols.map (fun c => (supportCount c : ℚ))).sum

/-- C4: the value `metric_func` prints under `Weighted averaging with w_k=1`
is exactly the unweighted arithmetic mean of the per-label F1 scores, for
every input; and (on a concrete input with unequal supports) it differs from
the support-weighted (class-weighted) average, so it is not a class-weighted
mean. -/
theorem weighted_avg_is_unweighted_mean_f1 :
    (∀ cols : List Col, weightedAvgF1 cols = unweightedMeanF1 cols) ∧
      weightedAvgF1 [([true, true, false, false], [true, true, false, false]),
                     ([true, false, false, false], [false, true, false, false])] ≠
        classWeightedF1 [([true, true, false, false], [true, true, false, false]),
                         ([true, false, false, false], [false, true, false, false])] := by
  constructor
  · intro cols
    rw [weightedAvgF1, listMean, unweightedMeanF1, List.length_map]
  · norm_num [weightedAvgF1, listMean, unweightedMeanF1, classWeightedF1,
      f1Score, sensitivityRate, precisionRate, supportCount,
      cTP, cFP, cFN, countPair, List.countP, List.countP.go]

lemma zip_self (l : List Bool) : l.zip l = l.map (fun x => (x, x)) := by
  induction l with
  | nil => rfl
  | cons x xs ih => simp [List.zip_cons_cons, ih]

lemma countPair_self (a b : Bool) (l : List Bool) :
    countPair a b l l = l.countP (fun x => x == a && x == b) := by
  rw [countPair, zip_self, List.countP_map]
  rfl

lemma cFP_self (l : List Bool) : cFP (l, l) = 0 := by
  rw [cFP]
  rw [countPair_self]
  rw [List.countP_eq_zero]
  intro x _
  cases x <;> simp

lemma cFN_self (l : List Bool) : cFN (l, l) = 0 := by
  rw [cFN]
  rw [countPair_self]
  rw [List.countP_eq_zero]
  intro x _
  cases x <;> simp

lemma cTP_self_pos (l : List Bool) (h : true ∈ l) : 0 < cTP (l, l) := by
  rw [cTP, countPair_self]
  rw [List.countP_pos_iff]
  exact ⟨true, h, by simp⟩

lemma listMean_all_one (xs : List ℚ) (hne : xs ≠ []) (h : ∀ x ∈ xs, x = 1) :
    listMean xs = 1 := by
  have hsum : xs.sum = (xs.length : ℚ) := by
    induction xs with
    | nil => simp
    | cons y ys ih =>
      simp only [List.sum_cons, List.length_cons, h y (List.mem_cons_self y ys)]
      rcases Decidable.em (ys = []) with hy | hy
      · subst hy; simp
      · rw [ih hy (fun x hx => h x (List.mem_cons_of_mem y hx))]
        push_cast
        ring
  rw [listMean, hsum, div_self]
  exact Nat.cast_ne_zero.mpr (Nat.pos_iff_ne_zero.mp (List.length_pos.mpr hne))

lemma sensitivityRate_self (l : List Bool) (h : true ∈ l) :
    sensitivityRate (l, l) = 1 := by
  rw [sensitivityRate]
  have hfn : cFN (l, l) = 0 := cFN_self l
  have htp : (cTP (l, l) : ℚ) ≠ 0 :=
    Nat.cast_ne_zero.mpr (Nat.pos_iff_ne_zero.mp (cTP_self_pos l h))
  rw [hfn]
  push_cast
  rw [add_zero, div_self htp]

lemma precisionRate_self (l : List Bool) (h : true ∈ l) :
    precisionRate (l, l) = 1 := by
  rw [precisionRate]
  have hfp : cFP (l, l) = 0 := cFP_self l
  have htp : (cTP (l, l) : ℚ) ≠ 0 :=
    Nat.cast_ne_zero.mpr (Nat.pos_iff_ne_zero.mp (cTP_self_pos l h))
  rw [hfp]
  push_cast
  rw [add_zero, div_self htp]

lemma f1Score_self (l : List Bool) (h : true ∈ l) : f1Score (l, l) = 1 := by
  rw [f1Score, sensitivityRate_self l h, precisionRate_self l h]
  norm_num

lemma col_eq_self (c : Col) (h : c.2 = c.1) : c = (c.1, c.1) := by
  cases c
  simp_all

/-- C7: if the binary predictions equal the binary labels exactly and every
label column contains at least one positive and one negative sample (and
there is at least one label column), both the macro-averaged F1 and the
micro-averaged F1 computed by `metric_func` equal 1. -/
theorem perfect_predictions_macro_micro_f1 (cols : List Col) (hne : cols ≠ [])
    (hperf : ∀ c ∈ cols, c.2 = c.1 ∧ true ∈ c.1 ∧ false ∈ c.1) :
    macroF1 cols = 1 ∧ microF1 cols = 1 := by
  have hsens : macroSensitivity cols = 1 := by
    rw [macroSensitivity]
    refine listMean_all_one _ (by simpa using hne) ?_
    intro x hx
    obtain ⟨c, hc, rfl⟩ := List.mem_map.mp hx
    obtain ⟨hcp, hct, _⟩ := hperf c hc
    rw [col_eq_self c hcp, sensitivityRate_self c.1 hct]
  have hprec : macroPrecision cols = 1 := by
    rw [macroPrecision]
    refine listMean_all_one _ (by simpa using hne) ?_
    intro x hx
    obtain ⟨c, hc, rfl⟩ := List.mem_map.mp hx
    obtain ⟨hcp, hct, _⟩ := hperf c hc
    rw [col_eq_self c hcp, precisionRate_self c.1 hct]
  have htpsum : 0 < (cols.map cTP).sum := by
    obtain ⟨c0, cs, rfl⟩ := List.exists_cons_of_ne_nil hne
    obtain ⟨hcp, hct, _⟩ := hperf c0 (List.mem_cons_self c0 cs)
    have h0 : 0 < cTP c0 := by
      rw [col_eq_self c0 hcp]
      exact cTP_self_pos c0.1 hct
    simp only [List.map_cons, List.sum_cons]
    omega
  have hn : (cols.length : ℚ) ≠ 0 :=
    Nat.cast_ne_zero.mpr (Nat.pos_iff_ne_zero.mp (List.length_pos.mpr hne))
  have htpm : tpMean cols ≠ 0 := by
    rw [tpMean, listMean, List.length_map, map_natcast_sum]
    exact div_ne_zero
      (Nat.cast_ne_zero.mpr (Nat.pos_iff_ne_zero.mp htpsum)) hn
  have hfnm : fnMean cols = 0 := by
    rw [fnMean, listMean]
    have : (cols.map (fun c => (cFN c : ℚ))).sum = 0 := by
      refine List.sum_eq_zero ?_
      intro x hx
      obtain ⟨c, hc, rfl⟩ := List.mem_map.mp hx
      obtain ⟨hcp, _, _⟩ := hperf c hc
      rw [col_eq_self c hcp, cFN_self]
      norm_num
    rw [this, zero_div]
  have hfpm : fpMean cols = 0 := by
    rw [fpMean, listMean]
    have : (cols.map (fun c => (cFP c : ℚ))).sum = 0 := by
      refine List.sum_eq_zero ?_
      intro x hx
      obtain ⟨c, hc, rfl⟩ := List.mem_map.mp hx
      obtain ⟨hcp, _, _⟩ := hperf c hc
      rw [col_eq_self c hcp, cFP_self]
      norm_num
    rw [this, zero_div]
  have hms : microSensitivity cols = 1 := by
    rw [microSensitivity, hfnm, add_zero, div_self htpm]
  have hmp : microPrecision cols = 1 := by
    rw [microPrecision, hfpm, add_zero, div_self htpm]
  constructor
  · rw [macroF1, hsens, hprec]
    norm_num
  · rw [microF1, hms, hmp]
    norm_num

/-- Witness for C7: one label column, predictions identical to labels. -/
theorem perfect_predictions_macro_micro_f1_witness :
    (([([true, false], [true, false])] : List Col) ≠ [] ∧
      ∀ c ∈ ([([true, false], [true, false])] : List Col),
        c.2 = c.1 ∧ true ∈ c.1 ∧ false ∈ c.1) ∧
    macroF1 [([true, false], [true, false])] = 1 ∧
      microF1 [([true, false], [true, false])] = 1 :=
  ⟨⟨by decide, by decide⟩,
    perfect_predictions_macro_micro_f1 [([true, false], [true, false])]
      (by decide) (by decide)⟩

/-- Numerator of `sensitivity_i` before the division (Model.py:249). -/
def sensNum (c : Col) : Nat := cTP c

/-- Denominator of `sensitivity_i` before the division (Model.py:249). -/
def sensDen (c : Col) : Nat := cTP c + cFN c

/-- Numerator of `precision_i` before the division (Model.py:251). -/
def precNum (c : Col) : Nat := cTP c

/-- Denominator of `precision_i` before the division (Model.py:251). -/
def precDen (c : Col) : Nat := cTP c + cFP c

/-- Modelled behaviour of `sklearn.metrics.roc_auc_score(y_true, y_score)`
(Model.py:263): it raises `ValueError` unless both classes are present in
`y_true`. -/
def rocAucRaises (labels : List Bool) : Bool :=
  !(labels.contains true) || !(labels.contains false)

lemma all_false_forall (l : List Bool) (h : l.all (fun b => !b) = true) :
    ∀ b ∈ l, b = false := by
  intro b hb
  have := List.all_eq_true.mp h b hb
  simpa using this

lemma cTP_all_false (c : Col) (h : ∀ b ∈ c.1, b = false) : cTP c = 0 := by
  rw [cTP, countPair, List.countP_eq_zero]
  intro x hx
  have hx1 : x.1 = false := h x.1 (List.of_mem_zip hx).1
  simp [hx1]

lemma cFN_all_false (c : Col) (h : ∀ b ∈ c.1, b = false) : cFN c = 0 := by
  rw [cFN, countPair, List.countP_eq_zero]
  intro x hx
  have hx1 : x.1 = false := h x.1 (List.of_mem_zip hx).1
  simp [hx1]

lemma cFP_eq_pred_positives (c : Col) (hlen : c.1.length = c.2.length)
    (h : ∀ b ∈ c.1, b = false) : cFP c = c.2.countP (· == true) := by
  rw [cFP, countPair]
  have hc : (c.1.zip c.2).countP (fun x => x.1 == false && x.2 == true) =
      (c.1.zip c.2).countP (fun x => x.2 == true) := by
    refine List.countP_congr ?_
    intro x hx
    have hx1 : x.1 = false := h x.1 (List.of_mem_zip hx).1
    simp [hx1]
  rw [hc]
  have hsnd : (c.1.zip c.2).map Prod.snd = c.2 :=
    List.map_snd_zip c.1 c.2 (le_of_eq hlen.symm)
  calc (c.1.zip c.2).countP (fun x => x.2 == true)
      = ((c.1.zip c.2).map Prod.snd).countP (· == true) := by
        rw [List.countP_map]; rfl
    _ = c.2.countP (· == true) := by rw [hsnd]

/-- Counterexample to C2 as stated: for the label column `[0, 0]` (all-zero
ground truth) with prediction column `[1, 0]`, the precision denominator
`TP + FP` is `1`, not `0`, so precision evaluates to `0/1 = 0` rather than
the undefined `0/0` form. -/
theorem allzero_label_precision_defined_counterexample :
    (([false, false] : List Bool).all (fun b => !b) = true) ∧
      precNum ([false, false], [true, false]) = 0 ∧
      precDen ([false, false], [true, false]) = 1 := by
  decide

/-- C2 (amended): for every label/prediction column pair of equal length
whose ground-truth column is all zero, the ROC-AUC computation raises (only
one class present), sensitivity is the undefined `0/0` form, the precision
numerator is `0`, and precision is the `0/0` form iff the prediction column
for that label is also all zero (otherwise it is `0` over a positive
denominator). -/
theorem allzero_label_column_metrics (c : Col)
    (hlen : c.1.length = c.2.length)
    (hzero : c.1.all (fun b => !b) = true) :
    rocAucRaises c.1 = true ∧
    sensNum c = 0 ∧ sensDen c = 0 ∧
    precNum c = 0 ∧
    (precDen c = 0 ↔ c.2.all (fun b => !b) = true) := by
  have hforall : ∀ b ∈ c.1, b = false := all_false_forall c.1 hzero
  have htp : cTP c = 0 := cTP_all_false c hforall
  have hfn : cFN c = 0 := cFN_all_false c hforall
  refine ⟨?_, htp, ?_, htp, ?_⟩
  · rw [rocAucRaises]
    have : c.1.contains true = false := by
      rw [List.contains_eq_any_beq]
      rw [List.any_eq_false]
      intro b hb
      simp [hforall b hb]
    rw [this]
    rfl
  · rw [sensDen, htp, hfn]
  · rw [precDen, htp, cFP_eq_pred_positives c hlen hforall, zero_add]
    rw [List.countP_eq_zero, List.all_eq_true]
    constructor
    · intro h b hb
      have := h b hb
      simpa using this
    · intro h b hb
      have := h b hb
      simpa using this

/-- Witness for the amended C2: labels `[0, 0]`, predictions `[1, 0]`. -/
theorem allzero_label_column_metrics_witness :
    ((([false, false] : List Bool).length = ([true, false] : List Bool).length) ∧
      (([false, false] : List Bool).all (fun b => !b) = true)) ∧
    (rocAucRaises [false, false] = true ∧
      sensNum ([false, false], [true, false]) = 0 ∧
      sensDen ([false, false], [true, false]) = 0 ∧
      precNum ([false, false], [true, false]) = 0 ∧
      (precDen ([false, false], [true, false]) = 0 ↔
        ([true, false] : List Bool).all (fun b => !b) = true)) :=
  ⟨⟨rfl, by decide⟩,
    allzero_label_column_metrics ([false, false], [true, false]) rfl (by decide)⟩

/-!
Embedding of `train` (Model.py:142-203) and `test` (Model.py:206-233).  The
network, optimizer and loss criterion are external collaborators; they are
abstracted in a `TrainEnv`: `trainStep` performs Model.py:157-163 (zero
grads, forward, loss, backward, optimizer step) returning the updated
network and `loss.item()`; `evalLoss` is `criterion(net(samples), labels)`
without a parameter update; `netProb` is `torch.sigmoid(net(samples))`, a
(batch × classes) matrix of probabilities; `labOf` is `batch['labels']`.
In the training pass the probabilities come from the forward output computed
before `optimizer.step()`, hence from the pre-step network.
-/

/-- A 2-D float array (samples × labels). -/
abbrev Mat : Type := List (List ℚ)

/-- The external collaborators of the training/evaluation loops. -/
structure TrainEnv (Net Batch : Type) where
  trainStep : Net → Batch → Net × ℚ
  evalLoss : Net → Batch → ℚ
  netProb : Net → Batch → Mat
  labOf : Batch → Mat

/-- One entry of `(preds > treshold_preds).float()` (Model.py:169, 188,
221): 1.0 iff the probability strictly exceeds the threshold. -/
def binElem (treshold p : ℚ) : ℚ := if treshold < p then 1 else 0

/-- `(preds > treshold_preds).float()` on a whole batch matrix. -/
def binPreds (treshold : ℚ) (probs : Mat) : Mat :=
  probs.map (fun row => row.map (binElem treshold))

/-- `np.concatenate` along axis 0 of a list of per-batch matrices. -/
def concatBatches (xs : List Mat) : Mat := xs.join

section TrainingLoop

variable {Net Batch : Type}

/-- Mutable state of the training pass (Model.py:150-173): the network
being updated, the running `train_loss`, and the `train_labels`,
`train_preds`, `train_prob` accumulation lists. -/
structure TrainPassState (Net : Type) where
  net : Net
  loss : ℚ
  labelsAcc : List Mat
  predsAcc : List Mat
  probAcc : List Mat

/-- Body of the training-batch loop (Model.py:155-173). -/
def trainPassStep (env : TrainEnv Net Batch) (t : ℚ)
    (st : TrainPassState Net) (b : Batch) : TrainPassState Net :=
  let p := env.netProb st.net b
  { net := (env.trainStep st.net b).1,
    loss := st.loss + (env.trainStep st.net b).2,
    labelsAcc := st.labelsAcc ++ [env.labOf b],
    predsAcc := st.predsAcc ++ [binPreds t p],
    probAcc := st.probAcc ++ [p] }

/-- The whole training pass, from the given initial accumulation lists (the
source always starts from empty lists and zero loss). -/
def runTrainPass (env : TrainEnv Net Batch) (t : ℚ) (net : Net)
    (batches : List Batch) (acc0 : List Mat × List Mat × List Mat) :
    TrainPassState Net :=
  batches.foldl (trainPassStep env t) ⟨net, 0, acc0.1, acc0.2.1, acc0.2.2⟩

/-- Mutable state of the validation pass (Model.py:180-192): `val_loss` and
the `val_labels`, `val_preds`, `val_prob` accumulation lists; the network is
not updated. -/
structure ValPassState where
  loss : ℚ
  labelsAcc : List Mat
  predsAcc : List Mat
  probAcc : List Mat

/-- Body of the validation-batch loop (Model.py:181-192). -/
def valPassStep (env : TrainEnv Net Batch) (t : ℚ) (net : Net)
    (st : ValPassState) (b : Batch) : ValPassState :=
  let p := env.netProb net b
  { loss := st.loss + env.evalLoss net b,
    labelsAcc := st.labelsAcc ++ [env.labOf b],
    predsAcc := st.predsAcc ++ [binPreds t p],
    probAcc := st.probAcc ++ [p] }

/-- The whole validation pass. -/
def runValPass (env : TrainEnv Net Batch) (t : ℚ) (net : Net)
    (batches : List Batch) : ValPassState :=
  batches.foldl (valPassStep env t net) ⟨0, [], [], []⟩

/-- Result of one epoch (Model.py:147-201): the updated network, the two
per-epoch losses (accumulated loss over batch count), the final training
accumulation state, and the three arrays handed to `metric_func`
(Model.py:198). -/
structure EpochResult (Net : Type) where
  net : Net
  trainLoss : ℚ
  valLoss : ℚ
  trainState : TrainPassState Net
  metricLabels : Mat
  metricPreds : Mat
  metricProbs : Mat

/-- One epoch of `train`. -/
def runEpoch (env : TrainEnv Net Batch) (t : ℚ) (net : Net)
    (tB vB : List Batch) : EpochResult Net :=
  let tp := runTrainPass env t net tB ([], [], [])
  let vp := runValPass env t tp.net vB
  { net := tp.net,
    trainLoss := tp.loss / (tB.length : ℚ),
    valLoss := vp.loss / (vB.length : ℚ),
    trainState := tp,
    metricLabels := concatBatches vp.labelsAcc,
    metricPreds := concatBatches vp.predsAcc,
    metricProbs := concatBatches vp.probAcc }

/-- `train(net, train_loader, val_loader, n_epoch, ...)` (Model.py:142-203):
iterates `n_epoch` epochs and returns the network and the two loss
histories, in epoch order. -/
def trainLoop (env : TrainEnv Net Batch) (t : ℚ) (tB vB : List Batch) :
    Nat → Net → Net × List ℚ × List ℚ
  | 0, net => (net, [], [])
  | n + 1, net =>
    let ep := runEpoch env t net tB vB
    let rest := trainLoop env t tB vB n ep.net
    (rest.1, ep.trainLoss :: rest.2.1, ep.valLoss :: rest.2.2)

/-- `test(net, test_loader, criterion, treshold_preds)` (Model.py:206-233):
one validation-style pass; returns the mean test loss and the three arrays
handed to `metric_func` (Model.py:229). -/
def testRun (env : TrainEnv Net Batch) (t : ℚ) (net : Net)
    (batches : List Batch) : ℚ × Mat × Mat × Mat :=
  let vp := runValPass env t net batches
  (vp.loss / (batches.length : ℚ),
   concatBatches vp.labelsAcc, concatBatches vp.predsAcc,
   concatBatches vp.probAcc)

/-- The network after one epoch's training pass. -/
def epochNet (env : TrainEnv Net Batch) (t : ℚ) (tB vB : List Batch)
    (net : Net) : Net :=
  (runEpoch env t net tB vB).net

/-- The network entering epoch `i` (0-based). -/
def netAtEpoch (env : TrainEnv Net Batch) (t : ℚ) (tB vB : List Batch) :
    Nat → Net → Net
  | 0, net => net
  | i + 1, net => netAtEpoch env t tB vB i (epochNet env t tB vB net)

end TrainingLoop

section TrainingLemmas

variable {Net Batch : Type}

lemma valPass_foldl (env : TrainEnv Net Batch) (t : ℚ) (net : Net)
    (bs : List Batch) (st : ValPassState) :
    bs.foldl (valPassStep env t net) st =
      ⟨st.loss + (bs.map (env.evalLoss net)).sum,
       st.labelsAcc ++ bs.map env.labOf,
       st.predsAcc ++ bs.map (fun b => binPreds t (env.netProb net b)),
       st.probAcc ++ bs.map (env.netProb net)⟩ := by
  induction bs generalizing st with
  | nil => simp
  | cons b bs ih =>
    rw [List.foldl_cons, ih]
    simp [valPassStep]
    ring

lemma runValPass_eq (env : TrainEnv Net Batch) (t : ℚ) (net : Net)
    (bs : List Batch) :
    runValPass env t net bs =
      ⟨(bs.map (env.evalLoss net)).sum,
       bs.map env.labOf,
       bs.map (fun b => binPreds t (env.netProb net b)),
       bs.map (env.netProb net)⟩ := by
  rw [runValPass, valPass_foldl]
  simp

/-- The network after a training pass over `bs` (parameter updates only). -/
def netAfterBatches (env : TrainEnv Net Batch) : Net → List Batch → Net :=
  fun net bs => bs.foldl (fun n b => (env.trainStep n b).1) net

/-- The accumulated training loss over `bs`, following the evolving
network. -/
def trainLossSum (env : TrainEnv Net Batch) : Net → List Batch → ℚ
  | _, [] => 0
  | net, b :: bs =>
    (env.trainStep net b).2 + trainLossSum env (env.trainStep net b).1 bs

/-- The per-batch probability matrices of a training pass, each computed
from the pre-step network of its batch. -/
def trainPassProbs (env : TrainEnv Net Batch) : Net → List Batch → List Mat
  | _, [] => []
  | net, b :: bs =>
    env.netProb net b :: trainPassProbs env (env.trainStep net b).1 bs

lemma trainPass_foldl (env : TrainEnv Net Batch) (t : ℚ) (bs : List Batch)
    (st : TrainPassState Net) :
    bs.foldl (trainPassStep env t) st =
      ⟨netAfterBatches env st.net bs,
       st.loss + trainLossSum env st.net bs,
       st.labelsAcc ++ bs.map env.labOf,
       st.predsAcc ++ (trainPassProbs env st.net bs).map (binPreds t),
       st.probAcc ++ trainPassProbs env st.net bs⟩ := by
  induction bs generalizing st with
  | nil => simp [netAfterBatches, trainLossSum, trainPassProbs]
  | cons b bs ih =>
    rw [List.foldl_cons, ih]
    simp [trainPassStep, netAfterBatches, trainLossSum, trainPassProbs]
    ring

lemma runTrainPass_eq (env : TrainEnv Net Batch) (t : ℚ) (net : Net)
    (bs : List Batch) (acc0 : List Mat × List Mat × List Mat) :
    runTrainPass env t net bs acc0 =
      ⟨netAfterBatches env net bs,
       trainLossSum env net bs,
       acc0.1 ++ bs.map env.labOf,
       acc0.2.1 ++ (trainPassProbs env net bs).map (binPreds t),
       acc0.2.2 ++ trainPassProbs env net bs⟩ := by
  rw [runTrainPass, trainPass_foldl]
  simp

lemma trainPassProbs_length (env : TrainEnv Net Batch) (net : Net)
    (bs : List Batch) : (trainPassProbs env net bs).length = bs.length := by
  induction bs generalizing net with
  | nil => rfl
  | cons b bs ih => simp [trainPassProbs, ih]

end TrainingLemmas

section TrainingClaims

variable {Net Batch : Type}

/-- C8: `train` over `n_epoch` epochs returns the network together with a
training-loss history and a validation-loss history; both histories have
exactly one entry per epoch (length `n_epoch`), and the `i`-th entries are
that epoch's accumulated training/validation losses divided by the number of
batches in the corresponding loader. -/
theorem train_loop_loss_histories (env : TrainEnv Net Batch) (t : ℚ)
    (tB vB : List Batch) (n : Nat) (net : Net) (hT : tB ≠ []) (hV : vB ≠ []) :
    (trainLoop env t tB vB n net).2.1.length = n ∧
    (trainLoop env t tB vB n net).2.2.length = n ∧
    (trainLoop env t tB vB n net).1 = netAtEpoch env t tB vB n net ∧
    (∀ i, i < n →
      (trainLoop env t tB vB n net).2.1[i]? =
        some ((runTrainPass env t (netAtEpoch env t tB vB i net) tB
            ([], [], [])).loss / (tB.length : ℚ)) ∧
      (trainLoop env t tB vB n net).2.2[i]? =
        some ((runValPass env t
            (runTrainPass env t (netAtEpoch env t tB vB i net) tB
              ([], [], [])).net vB).loss / (vB.length : ℚ))) := by
  induction n generalizing net with
  | zero =>
    refine ⟨rfl, rfl, rfl, ?_⟩
    intro i hi
    exact absurd hi (Nat.not_lt_zero i)
  | succ n ih =>
    obtain ⟨ih1, ih2, ih3, ih4⟩ := ih (epochNet env t tB vB net)
    refine ⟨?_, ?_, ?_, ?_⟩
    · simpa [trainLoop] using ih1
    · simpa [trainLoop] using ih2
    · simpa [trainLoop, netAtEpoch] using ih3
    · intro i hi
      cases i with
      | zero =>
        constructor
        · simp [trainLoop, runEpoch, netAtEpoch]
        · simp [trainLoop, runEpoch, netAtEpoch]
      | succ i =>
        have hlt : i < n := Nat.lt_of_succ_lt_succ hi
        obtain ⟨h1, h2⟩ := ih4 i hlt
        constructor
        · simpa [trainLoop, netAtEpoch] using h1
        · simpa [trainLoop, netAtEpoch] using h2

end TrainingClaims

/-- A concrete trivial environment used by witnesses: a unit network whose
steps cost loss 1, evaluation loss 2, constant probability 1 and constant
label 1. -/
def unitEnv : TrainEnv Unit Unit :=
  ⟨fun _ _ => ((), 1), fun _ _ => 2, fun _ _ => [[1]], fun _ => [[1]]⟩

/-- Witness for C8: two epochs over singleton loaders. -/
theorem train_loop_loss_histories_witness :
    (([()] : List Unit) ≠ [] ∧ ([()] : List Unit) ≠ []) ∧
    ((trainLoop unitEnv (1/2) [()] [()] 2 ()).2.1.length = 2 ∧
     (trainLoop unitEnv (1/2) [()] [()] 2 ()).2.2.length = 2 ∧
     (trainLoop unitEnv (1/2) [()] [()] 2 ()).1 =
       netAtEpoch unitEnv (1/2) [()] [()] 2 () ∧
     (∀ i, i < 2 →
       (trainLoop unitEnv (1/2) [()] [()] 2 ()).2.1[i]? =
         some ((runTrainPass unitEnv (1/2)
             (netAtEpoch unitEnv (1/2) [()] [()] i ()) [()]
             ([], [], [])).loss / (([()] : List Unit).length : ℚ)) ∧
       (trainLoop unitEnv (1/2) [()] [()] 2 ()).2.2[i]? =
         some ((runValPass unitEnv (1/2)
             (runTrainPass unitEnv (1/2)
               (netAtEpoch unitEnv (1/2) [()] [()] i ()) [()]
               ([], [], [])).net [()]).loss /
           (([()] : List Unit).length : ℚ)))) :=
  ⟨⟨by decide, by decide⟩,
    train_loop_loss_histories unitEnv (1/2) [()] [()] 2 () (by decide) (by decide)⟩

section MoreTrainingClaims

variable {Net Batch : Type}

/-- C9: in both the train and test loops, binarization is the strict
comparison `(preds > treshold_preds).float()`: an entry is 1 iff the
(post-sigmoid) probability strictly exceeds the caller-supplied threshold,
so a probability exactly equal to the threshold is classified negative; the
prediction accumulators of the training pass, the validation pass and the
test run are all built with this binarization. -/
theorem binarization_strict_threshold (env : TrainEnv Net Batch) (t : ℚ) :
    (∀ p : ℚ, (binElem t p = 1 ↔ t < p) ∧ (binElem t p = 0 ↔ ¬t < p)) ∧
    binElem t t = 0 ∧
    (∀ (net : Net) (bs : List Batch),
      (runValPass env t net bs).predsAcc =
        bs.map (fun b => binPreds t (env.netProb net b))) ∧
    (∀ (net : Net) (bs : List Batch) (acc0 : List Mat × List Mat × List Mat),
      (runTrainPass env t net bs acc0).predsAcc =
        acc0.2.1 ++ (trainPassProbs env net bs).map (binPreds t)) ∧
    (∀ (net : Net) (bs : List Batch),
      (testRun env t net bs).2.2.1 =
        concatBatches (bs.map (fun b => binPreds t (env.netProb net b)))) := by
  refine ⟨?_, ?_, ?_, ?_, ?_⟩
  · intro p
    by_cases h : t < p <;> simp [binElem, h]
  · simp [binElem]
  · intro net bs
    rw [runValPass_eq]
  · intro net bs acc0
    rw [runTrainPass_eq]
  · intro net bs
    simp [testRun, runValPass_eq]

/-- C10: in every epoch, the three arrays handed to `metric_func` are
exactly the concatenated validation labels, binary predictions and
probabilities (computed with the post-training-pass network); the training
accumulation lists receive exactly one appended entry per training batch;
and the parts of the epoch that are read afterwards (the updated network
and the accumulated training loss) do not depend on the contents of the
training accumulation lists. -/
theorem metric_report_validation_only (env : TrainEnv Net Batch) (t : ℚ)
    (net : Net) (tB vB : List Batch) :
    ((runEpoch env t net tB vB).metricLabels =
        concatBatches (vB.map env.labOf) ∧
      (runEpoch env t net tB vB).metricPreds =
        concatBatches (vB.map (fun b =>
          binPreds t (env.netProb (runEpoch env t net tB vB).net b))) ∧
      (runEpoch env t net tB vB).metricProbs =
        concatBatches (vB.map (env.netProb (runEpoch env t net tB vB).net))) ∧
    ((runEpoch env t net tB vB).trainState.labelsAcc = tB.map env.labOf ∧
      (runEpoch env t net tB vB).trainState.predsAcc.length = tB.length ∧
      (runEpoch env t net tB vB).trainState.probAcc.length = tB.length) ∧
    (∀ acc0 : List Mat × List Mat × List Mat,
      (runTrainPass env t net tB acc0).net = (runEpoch env t net tB vB).net ∧
      (runTrainPass env t net tB acc0).loss =
        (runEpoch env t net tB vB).trainState.loss) := by
  refine ⟨⟨?_, ?_, ?_⟩, ⟨?_, ?_, ?_⟩, ?_⟩
  · simp [runEpoch, runValPass_eq]
  · simp [runEpoch, runValPass_eq]
  · simp [runEpoch, runValPass_eq]
  · simp [runEpoch, runTrainPass_eq]
  · simp [runEpoch, runTrainPass_eq, trainPassProbs_length]
  · simp [runEpoch, runTrainPass_eq, trainPassProbs_length]
  · intro acc0
    constructor
    · simp [runEpoch, runTrainPass_eq]
    · simp [runEpoch, runTrainPass_eq]

end MoreTrainingClaims
